import Mathlib

/-!
# MessageEventModel of the Quaternion client

A shallow embedding of `src/client/models/messageeventmodel.cpp`: the list model that
serves the pending events and the timeline of a chat room as rows.

Conventions of the embedding.

* `int` and `size_t` values are integers; the container sizes involved are far below
  the width of `int`, so no wrap-around is modelled.
* A reverse iterator over the timeline is its offset from `rbegin()`: offset `0` is the
  newest event, offset `timelineSize` is `rend()`, which is `timelineEdge()`.
* `tr()` is the identity on the source text and `QString::arg` substitutes `%1`.
* Signals and the begin/end notifications of the item model are returned as values.
* Whether the build defines `QT_NO_DEBUG` is an argument of the one handler that calls
  the item model inside `Q_ASSERT`; whether the local clock has a midnight on a date is
  a field of the environment.
* The room (`QuaternionRoom`, `Room`) and the Qt classes are library code: the room is
  a record of the containers and lookups the model reads from it.
-/

namespace MessageEventModel

/-! ## Qt values -/

/-- A valid `QDate`, as its Julian day number. -/
structure QDate where
  jd : Int
  deriving DecidableEq

/-- The call `QDate::addDays`. -/
def QDate.addDays (d : QDate) (n : Int) : QDate := ⟨d.jd + n⟩

/-- A valid `QTime`, as milliseconds since midnight. -/
structure QTime where
  msecs : Nat
  deriving DecidableEq

/-- The constructor `QTime(h, m)`. -/
def QTime.ofHM (h m : Nat) : QTime := ⟨(h * 60 + m) * 60000⟩

/-- The enumeration `Qt::TimeSpec`, as far as it is used. -/
inductive TimeSpec
  | LocalTime
  | UTC
  deriving DecidableEq

/-- A `QDateTime`: the default-constructed invalid value, or a date, a time and a time
spec that name a moment, or a date and a local time that name none because the local
clock skips that time on that date (a daylight-saving gap). -/
inductive QDateTime
  | invalid
  | mk (date : QDate) (time : QTime) (spec : TimeSpec)
  | inGap (date : QDate) (time : QTime)
  deriving DecidableEq

/-- The call `QDateTime::isValid`: the date and the time are valid and name a moment
in the time spec. -/
def QDateTime.isValid : QDateTime → Bool
  | .invalid => false
  | .mk _ _ _ => true
  | .inGap _ _ => false

/-- Progress record of a file transfer (`FileTransferInfo`). -/
structure FileTransferInfo where
  active : Bool
  completed : Bool
  progress : Int
  total : Int
  deriving DecidableEq

/-- A `QVariant` as returned by `data()`; `null` is `QVariant()`. -/
inductive QVariant
  | null
  | string (s : String)
  | bool (b : Bool)
  | dateTime (d : QDateTime)
  | user (id : String)
  | fileTransfer (info : FileTransferInfo)
  deriving DecidableEq

/-! ## Events -/

/-- The enumeration `MembershipType`. -/
inductive MembershipType
  | Invite
  | Join
  | Knock
  | Leave
  | Ban
  | Undefined
  deriving DecidableEq

/-- The enumeration `MessageEventType`. -/
inductive MessageEventType
  | Text
  | Emote
  | Notice
  | Image
  | File
  | Location
  | Video
  | Audio
  | Unknown
  deriving DecidableEq

/-- Content of a room message: absent, textual, or with file information. -/
inductive MessageContent
  | absent
  | text (mimeType : String) (body : String)
  | file (mimeType : String) (originalName : String) (originalJson : String)
  deriving DecidableEq

/-- A `RoomMessageEvent`. -/
structure RoomMessageEvent where
  msgtype : MessageEventType
  plainBody : String
  content : MessageContent
  deriving DecidableEq

/-- The call `RoomMessageEvent::mimeType().name()`; plain text when there is no content. -/
def RoomMessageEvent.mimeTypeName (e : RoomMessageEvent) : String :=
  match e.content with
  | .absent => "text/plain"
  | .text mt _ => mt
  | .file mt _ _ => mt

/-- The call `RoomMessageEvent::hasTextContent`. -/
def RoomMessageEvent.hasTextContent (e : RoomMessageEvent) : Bool :=
  match e.content with
  | .text _ _ => true
  | _ => false

/-- The call `RoomMessageEvent::hasFileContent`. -/
def RoomMessageEvent.hasFileContent (e : RoomMessageEvent) : Bool :=
  match e.content with
  | .file _ _ _ => true
  | _ => false

/-- The previous content of a member event. -/
structure MemberEventContent where
  membership : MembershipType
  displayName : String
  avatarUrl : String
  deriving DecidableEq

/-- A `RoomMemberEvent`. -/
structure RoomMemberEvent where
  userId : String
  membership : MembershipType
  displayName : String
  avatarUrl : String
  prevContent : Option MemberEventContent
  deriving DecidableEq

/-- The state events that `data()` tells apart. -/
inductive StateContent
  | member (e : RoomMemberEvent)
  | aliases (aliases : List String)
  | canonicalAlias (mainAlias : String)
  | name (name : String)
  | topic (topic : String)
  | avatar
  | encryption
  | unknown
  deriving DecidableEq

/-- The dynamic type of a room event. -/
inductive EventKind
  | roomMessage (e : RoomMessageEvent)
  | stateEvent (repeatsState : Bool) (c : StateContent)
  | redaction
  | other
  deriving DecidableEq

/-- A `RoomEvent`; `redactedBecause` holds the reason of the redaction when redacted. -/
structure RoomEvent where
  id : String
  senderId : String
  timestamp : QDateTime
  redactedBecause : Option String
  originalJson : String
  matrixType : String
  kind : EventKind
  deriving DecidableEq

/-- The call `RoomEvent::isRedacted`. -/
def RoomEvent.isRedacted (e : RoomEvent) : Bool := e.redactedBecause.isSome

/-- The call `Event::isStateEvent`. -/
def RoomEvent.isStateEvent (e : RoomEvent) : Bool :=
  match e.kind with
  | .stateEvent _ _ => true
  | _ => false

/-- The call `StateEventBase::repeatsState`, on an event known to be a state event. -/
def RoomEvent.repeatsState (e : RoomEvent) : Bool :=
  match e.kind with
  | .stateEvent r _ => r
  | _ => false

/-! ## The room and the model state -/

/-- What the model reads from the current room. `messageEvents` is the timeline, oldest
event first; `pendingEvents` are the local echoes not yet merged into the timeline. -/
structure Room where
  pendingEvents : List RoomEvent
  messageEvents : List RoomEvent
  localUser : String
  readMarkerEventId : String
  prettyPrint : String → String
  roomMembername : String → String
  isEventHighlighted : RoomEvent → Bool
  fileTransferInfo : String → FileTransferInfo

/-- The call `Room::timelineSize`: the size of the timeline container. -/
def Room.timelineSize (room : Room) : Int := room.messageEvents.length

/-- The call `Room::timelineEdge`: the offset of `rend()`. -/
def Room.timelineEdge (room : Room) : Int := room.messageEvents.length

/-- Dereference of the reverse timeline iterator at offset `it`. -/
def Room.atRev (room : Room) (it : Int) : Option RoomEvent :=
  if it < 0 then none else room.messageEvents.reverse[it.toNat]?

/-- The call `Room::findInTimeline(eventId)`: the reverse iterator of the timeline event
with this id, `timelineEdge()` when there is none. -/
def Room.findInTimeline (room : Room) (eventId : String) : Int :=
  room.messageEvents.reverse.findIdx (fun e => e.id = eventId)

/-- What `data()` reads from the environment: the clock, the settings and the locale. -/
structure Env where
  currentDateTimeUtc : QDateTime
  currentDate : QDate
  localMidnightExists : QDate → Bool
  humanFriendlyDate : Bool
  toLocalDate : QDateTime → QDate
  dayName : QDate → String
  shortDate : QDate → String

/-- The fields of `MessageEventModel`. -/
structure Model where
  m_currentRoom : Option Room
  lastReadEventId : String
  nextNewerRow : Int
  mergingEcho : Bool

/-! ## Roles -/

/-- The role `Qt::DisplayRole`. -/
def DisplayRole : Int := 0
/-- The role `Qt::ToolTipRole`. -/
def ToolTipRole : Int := 3
/-- The role `Qt::UserRole`. -/
def UserRole : Int := 256
/-- Role of the enumeration `EventRoles`. -/
def EventTypeRole : Int := UserRole + 1
/-- Role of the enumeration `EventRoles`. -/
def EventIdRole : Int := UserRole + 2
/-- Role of the enumeration `EventRoles`. -/
def TimeRole : Int := UserRole + 3
/-- Role of the enumeration `EventRoles`. -/
def SectionRole : Int := UserRole + 4
/-- Role of the enumeration `EventRoles`. -/
def AboveSectionRole : Int := UserRole + 5
/-- Role of the enumeration `EventRoles`. -/
def AuthorRole : Int := UserRole + 6
/-- Role of the enumeration `EventRoles`. -/
def AboveAuthorRole : Int := UserRole + 7
/-- Role of the enumeration `EventRoles`. -/
def ContentRole : Int := UserRole + 8
/-- Role of the enumeration `EventRoles`. -/
def ContentTypeRole : Int := UserRole + 9
/-- Role of the enumeration `EventRoles`. -/
def HighlightRole : Int := UserRole + 10
/-- Role of the enumeration `EventRoles`. -/
def ReadMarkerRole : Int := UserRole + 11
/-- Role of the enumeration `EventRoles`. -/
def SpecialMarksRole : Int := UserRole + 12
/-- Role of the enumeration `EventRoles`. -/
def LongOperationRole : Int := UserRole + 13
/-- Role of the enumeration `EventRoles`. -/
def EventResolvedTypeRole : Int := UserRole + 14

/-! ## Timestamps and date strings -/

/-- The predicate `hasValidTimestamp` on a timeline item. -/
def hasValidTimestamp (ti : RoomEvent) : Bool := ti.timestamp.isValid

/-- The constructor `QDateTime(date, {0,0}, Qt::LocalTime)`: zero time, local, on the
date; not a valid date-time when the local clock skips midnight on that date. -/
def localMidnightOn (env : Env) (date : QDate) : QDateTime :=
  if env.localMidnightExists date then .mk date (QTime.ofHM 0 0) .LocalTime
  else .inGap date (QTime.ofHM 0 0)

/-- The date part of a timestamp at zero time, local:
`{ ts.date(), {0,0}, Qt::LocalTime }`; only built from a valid timestamp. -/
def zeroTimeOn (env : Env) : QDateTime → QDateTime
  | .invalid => .invalid
  | .mk date _ _ => localMidnightOn env date
  | .inGap date _ => localMidnightOn env date

/-- The method `MessageEventModel::makeMessageTimestamp`, at the reverse iterator with
offset `baseIt`. The first `find_if` runs over the reverse range from `baseIt` to
`rend()`, which is the reversed timeline without its first `baseIt` items; the second
runs over the forward range from `baseIt.base()` to `end()`, which is the timeline
without its first `size - baseIt` items. `List.find?` is `std::find_if`, with `none`
for the end of the range. -/
def makeMessageTimestamp (env : Env) (room : Room) (baseIt : Nat) : QDateTime :=
  let timeline := room.messageEvents
  match timeline.reverse[baseIt]? with
  | none => .invalid
  | some base =>
    let ts := base.timestamp
    if ts.isValid then ts
    else
      match (timeline.reverse.drop baseIt).find? hasValidTimestamp with
      | some rit => zeroTimeOn env rit.timestamp
      | none =>
        match (timeline.drop (timeline.length - baseIt)).find? hasValidTimestamp with
        | some it => zeroTimeOn env it.timestamp
        | none => .invalid

/-- The method `MessageEventModel::makeDateString`. The default-constructed date-time
has an invalid date, which equals no date and prints as the empty string. -/
def makeDateString (env : Env) (room : Room) (baseIt : Nat) : String :=
  match makeMessageTimestamp env room baseIt with
  | .invalid => ""
  | ts =>
    let date := env.toLocalDate ts
    if env.humanFriendlyDate then
      if date = env.currentDate then "Today"
      else if date = env.currentDate.addDays (-1) then "Yesterday"
      else if date = env.currentDate.addDays (-2) then "The day before yesterday"
      else if date.jd > (env.currentDate.addDays (-7)).jd then env.dayName date
      else env.shortDate date
    else env.shortDate date

/-! ## Rows -/

/-- The method `MessageEventModel::rowCount`; `parentIsValid` is `parent.isValid()`. -/
def rowCount (m : Model) (parentIsValid : Bool) : Int :=
  match m.m_currentRoom with
  | none => 0
  | some room => if parentIsValid then 0 else room.timelineSize

/-- The call `QAbstractListModel::index(row)`: a valid index of the row when the row
exists according to `rowCount()`, the invalid index otherwise. -/
def index (m : Model) (row : Int) : Option Int :=
  if 0 ≤ row ∧ row < rowCount m false then some row else none

/-- The head of `MessageEventModel::data`: the range check and the choice of the event
of a row. `none` is the early `return {}`. -/
def rowEvent (m : Model) (row : Int) : Option RoomEvent :=
  match m.m_currentRoom with
  | none => none
  | some room =>
    if row < 0 ∨ row ≥ (room.pendingEvents.length : Int) + room.timelineSize then none
    else
      let timelineBaseIdx : Int := room.pendingEvents.length
      let timelineIt : Int := max (-1) (row - timelineBaseIdx)
      if row < timelineBaseIdx then room.pendingEvents[row.toNat]?
      else room.atRev timelineIt

/-- Display text of a room message event. -/
def messageEventText (room : Room) (e : RoomMessageEvent) : String :=
  match e.content with
  | .text mimeType body =>
    if mimeType ≠ "text/plain" then body else room.prettyPrint e.plainBody
  | .file _ originalName _ =>
    let fileCaption := if originalName = "" then room.prettyPrint e.plainBody else originalName
    if fileCaption = "" then "a file" else room.prettyPrint e.plainBody
  | .absent => room.prettyPrint e.plainBody

/-- The `Join` case of the member event visitor, which `Invite` falls through to. -/
def joinCaseText (subjectName : String) (repeatsState : Bool) (e : RoomMemberEvent) : String :=
  if repeatsState then "joined the room (repeated)"
  else
    let fresh :=
      if e.membership = .Invite then "invited " ++ subjectName ++ " to the room"
      else "joined the room"
    match e.prevContent with
    | none => fresh
    | some prevContent =>
      if e.membership ≠ prevContent.membership then fresh
      else
        let text := ""
        let text :=
          if e.displayName ≠ prevContent.displayName then
            if e.displayName = "" then "cleared the display name"
            else "changed the display name to " ++ e.displayName
          else text
        let text :=
          if e.avatarUrl ≠ prevContent.avatarUrl then
            let text := if text ≠ "" then text ++ " and " else text
            if e.avatarUrl = "" then text ++ "cleared the avatar"
            else text ++ "updated the avatar"
          else text
        text

/-- Display text of a room member event. -/
def memberEventText (room : Room) (senderId : String) (repeatsState : Bool)
    (e : RoomMemberEvent) : String :=
  let subjectName := room.roomMembername e.userId
  match e.membership with
  | .Invite =>
    if repeatsState then "reinvited " ++ subjectName ++ " to the room"
    else joinCaseText subjectName repeatsState e
  | .Join => joinCaseText subjectName repeatsState e
  | .Leave =>
    if (e.prevContent.map (fun c => c.membership)) = some .Ban then
      if senderId ≠ e.userId then "unbanned " ++ subjectName else "self-unbanned"
    else if senderId ≠ e.userId then "has put " ++ subjectName ++ " out of the room"
    else "left the room"
  | .Ban =>
    if senderId ≠ e.userId then "banned " ++ subjectName ++ " from the room"
    else "self-banned from the room"
  | .Knock => "knocked"
  | .Undefined => "made something unknown"

/-- The `Qt::DisplayRole` block of `data()`. -/
def displayText (room : Room) (evt : RoomEvent) : String :=
  match evt.redactedBecause with
  | some reason => if reason = "" then "Redacted" else "Redacted: " ++ reason
  | none =>
    match evt.kind with
    | .roomMessage e => messageEventText room e
    | .stateEvent repeatsState (.member e) => memberEventText room evt.senderId repeatsState e
    | .stateEvent _ (.aliases aliases) => "set aliases to: " ++ ", ".intercalate aliases
    | .stateEvent _ (.canonicalAlias mainAlias) =>
      if mainAlias = "" then "cleared the room main alias"
      else "set the room main alias to: " ++ mainAlias
    | .stateEvent _ (.name name) =>
      if name = "" then "cleared the room name" else "set the room name to: " ++ name
    | .stateEvent _ (.topic topic) =>
      if topic = "" then "cleared the topic" else "set the topic to: " ++ topic
    | .stateEvent _ .avatar => "changed the room avatar"
    | .stateEvent _ .encryption => "activated End-to-End Encryption"
    | _ => "Unknown Event"

/-- The `EventTypeRole` block of `data()`. -/
def eventTypeText (evt : RoomEvent) : String :=
  match evt.kind with
  | .roomMessage e =>
    match e.msgtype with
    | .Emote => "emote"
    | .Notice => "notice"
    | .Image => "image"
    | .File => "file"
    | .Audio => "file"
    | .Video => "file"
    | _ => "message"
  | .redaction => "redaction"
  | .stateEvent _ _ => "state"
  | .other => "other"

/-- The `ContentTypeRole` block of `data()`. -/
def contentTypeText (evt : RoomEvent) : String :=
  match evt.kind with
  | .roomMessage e =>
    let contentType := e.mimeTypeName
    if contentType = "text/plain" then "text/html" else contentType
  | _ => "text/plain"

/-- The cast `eventCast<const RoomMessageEvent>(&evt)`. -/
def eventCastMessage (evt : RoomEvent) : Option RoomMessageEvent :=
  match evt.kind with
  | .roomMessage e => some e
  | _ => none

/-- The `ContentRole` block of `data()`; `none` when control leaves the block without
a `return`, and the role checks after it go on. -/
def contentBlock (evt : RoomEvent) : Option QVariant :=
  match evt.redactedBecause with
  | some reason => some (.string (if reason = "" then "Redacted" else "Redacted: " ++ reason))
  | none =>
    match eventCastMessage evt with
    | some e =>
      match e.content with
      | .file _ _ originalJson => some (.string originalJson)
      | _ => some .null
    | none => none

/-- The `LongOperationRole` block of `data()`; `none` when it does not return. -/
def longOperationBlock (room : Room) (evt : RoomEvent) : Option QVariant :=
  match eventCastMessage evt with
  | some e =>
    if e.hasFileContent then some (.fileTransfer (room.fileTransferInfo evt.id)) else none
  | none => none

/-- The tail of `data()`, reached by the roles that no earlier block answers: the block
for the timeline rows and the topmost pending row, then `return QVariant()`. -/
def dataTail (env : Env) (room : Room) (row : Int) (timelineIt : Int) (role : Int) : QVariant :=
  let timelineBaseIdx : Int := room.pendingEvents.length
  if row ≥ timelineBaseIdx - 1 then
    if role = TimeRole then
      .dateTime (if row < timelineBaseIdx then env.currentDateTimeUtc
                 else makeMessageTimestamp env room timelineIt.toNat)
    else if role = SectionRole then
      .string (if row < timelineBaseIdx then "Today"
               else makeDateString env room timelineIt.toNat)
    else
      let aboveEventIt := timelineIt + 1
      if aboveEventIt ≠ room.timelineEdge then
        if role = AboveSectionRole then .string (makeDateString env room aboveEventIt.toNat)
        else if role = AboveAuthorRole then
          match room.atRev aboveEventIt with
          | some above => .user above.senderId
          | none => .null
        else .null
      else .null
  else .null

/-- The body of `MessageEventModel::data` after the event `evt` of the row is chosen. -/
def dataOfEvent (env : Env) (m : Model) (room : Room) (row : Int) (timelineIt : Int)
    (evt : RoomEvent) (role : Int) : QVariant :=
  let timelineBaseIdx : Int := room.pendingEvents.length
  if role = DisplayRole then .string (displayText room evt)
  else if role = ToolTipRole then .string evt.originalJson
  else if role = EventTypeRole then .string (eventTypeText evt)
  else if role = EventResolvedTypeRole then .string evt.matrixType
  else if role = AuthorRole then
    .user (if row < timelineBaseIdx then room.localUser else evt.senderId)
  else if role = ContentTypeRole then .string (contentTypeText evt)
  else if role = ContentRole then
    (contentBlock evt).getD (dataTail env room row timelineIt role)
  else if role = HighlightRole then .bool (room.isEventHighlighted evt)
  else if role = ReadMarkerRole then .bool (evt.id = m.lastReadEventId)
  else if role = SpecialMarksRole then
    if row < timelineBaseIdx then .string (if evt.id = "" then "unsent" else "unsynced")
    else if evt.isStateEvent ∧ evt.repeatsState then .string "noop"
    else .string (if evt.isRedacted then "redacted" else "")
  else if role = EventIdRole then .string evt.id
  else if role = LongOperationRole then
    (longOperationBlock room evt).getD (dataTail env room row timelineIt role)
  else dataTail env room row timelineIt role

/-- The method `MessageEventModel::data`, at the index of row `row` (`index.row()`). -/
def data (env : Env) (m : Model) (row : Int) (role : Int) : QVariant :=
  match m.m_currentRoom, rowEvent m row with
  | some room, some evt =>
    dataOfEvent env m room row (max (-1) (row - (room.pendingEvents.length : Int))) evt role
  | _, _ => .null

/-! ## Notifications and handlers -/

/-- What the model tells its views: the begin/end calls of the item model and the
`dataChanged` signal, whose two indexes are `none` when invalid. -/
inductive Notification
  | beginInsertRows (first last : Int)
  | endInsertRows
  | beginMoveRows (sourceFirst sourceLast destinationChild : Int)
  | endMoveRows
  | dataChanged (topLeft bottomRight : Option Int) (roles : List Int)
  deriving DecidableEq

/-- The overload `refreshEventRoles(const int row, roles)`. -/
def refreshEventRolesRow (m : Model) (row : Int) (roles : List Int) : Notification :=
  let idx := index m row
  .dataChanged idx idx roles

/-- The overload `refreshEventRoles(const QString& eventId, roles)`; the row passed on
is `it - messageEvents().rbegin()`, the offset of the iterator found. -/
def refreshEventRoles (m : Model) (eventId : String) (roles : List Int) : List Notification :=
  match m.m_currentRoom with
  | none => []
  | some room =>
    let it := room.findInTimeline eventId
    if it ≠ room.timelineEdge then [refreshEventRolesRow m it roles] else []

/-- The method `MessageEventModel::refreshEvent`. -/
def refreshEvent (m : Model) (eventId : String) : List Notification :=
  refreshEventRoles m eventId []

/-- The handler of `Room::aboutToAddNewMessages` in `changeRoom`. -/
def onAboutToAddNewMessages (room : Room) (events : List RoomEvent) : Notification :=
  let pos : Int := room.pendingEvents.length
  .beginInsertRows pos (pos + (events.length : Int) - 1)

/-- The handler of `Room::aboutToAddHistoricalMessages` in `changeRoom`. -/
def onAboutToAddHistoricalMessages (m : Model) (events : List RoomEvent) :
    Model × Notification :=
  let m1 := if rowCount m false > 0 then { m with nextNewerRow := rowCount m false - 1 } else m
  (m1, .beginInsertRows (rowCount m false) (rowCount m false + (events.length : Int) - 1))

/-- The handler of `Room::addedMessages` in `changeRoom`. -/
def onAddedMessages (m : Model) : Model × List Notification :=
  if m.nextNewerRow > -1 then
    let idx := index m m.nextNewerRow
    ({ m with nextNewerRow := -1 }, [.dataChanged idx idx [], .endInsertRows])
  else (m, [.endInsertRows])

/-- The handler of `Room::pendingEventAboutToAdd` in `changeRoom`. -/
def onPendingEventAboutToAdd : Notification := .beginInsertRows 0 0

/-- The macro `Q_ASSERT` around a call that notifies the views: with `QT_NO_DEBUG`
defined the macro does not evaluate its argument, so the call is not made. -/
def qAssertCall (qtNoDebug : Bool) (call : Notification) : Option Notification :=
  if qtNoDebug then none else some call

/-- The handler of `Room::pendingEventAboutToMerge` in `changeRoom`, in a build with
`QT_NO_DEBUG` defined or not; `none` in the second component is no call to the views:
the early return, or the `beginMoveRows` call left out with its `Q_ASSERT`. -/
def onPendingEventAboutToMerge (qtNoDebug : Bool) (m : Model) (room : Room) (i : Int) :
    Model × Option Notification :=
  let timelineBaseIdx : Int := room.pendingEvents.length
  if i + 1 = timelineBaseIdx then (m, none)
  else ({ m with mergingEcho := true },
    qAssertCall qtNoDebug (.beginMoveRows i i timelineBaseIdx))

/-- The handler of `Room::pendingEventMerged` in `changeRoom`. -/
def onPendingEventMerged (m : Model) (room : Room) : Model × List Notification :=
  let refresh := refreshEventRolesRow m room.pendingEvents.length [SpecialMarksRole]
  if m.mergingEcho then ({ m with mergingEcho := false }, [.endMoveRows, refresh])
  else (m, [refresh])

/-- The result of `QAbstractItemModel::beginMoveRows` for a move within one parent: its
three preconditions, and the refusal of a destination inside `[sourceFirst, sourceLast + 1]`. -/
def beginMoveRowsResult (sourceFirst sourceLast destinationChild : Int) : Bool :=
  decide (sourceFirst ≥ 0) && decide (sourceLast ≥ sourceFirst) && decide (destinationChild ≥ 0)
    && !(decide (destinationChild ≥ sourceFirst) && decide (destinationChild ≤ sourceLast + 1))

/-- The room after `Room::addNewMessageEvents`: the batch, oldest first, is appended at
the newest end of the timeline. -/
def Room.addNewMessageEvents (room : Room) (events : List RoomEvent) : Room :=
  { room with messageEvents := room.messageEvents ++ events }

/-- The room after `Room::addHistoricalMessageEvents`: the batch, newest first, is put
event by event in front of the oldest end of the timeline. -/
def Room.addHistoricalMessageEvents (room : Room) (events : List RoomEvent) : Room :=
  { room with messageEvents := events.reverse ++ room.messageEvents }

/-! ## Sample values for the closed statements -/

/-- An event with the given id, sender and timestamp, not redacted, of unknown type. -/
def sampleEvent (id senderId : String) (timestamp : QDateTime) : RoomEvent :=
  { id := id, senderId := senderId, timestamp := timestamp, redactedBecause := none,
    originalJson := "", matrixType := "m.unknown", kind := .other }

/-- A room with the given pending events and timeline. -/
def sampleRoom (pendingEvents messageEvents : List RoomEvent) : Room :=
  { pendingEvents := pendingEvents, messageEvents := messageEvents, localUser := "@me:example.org",
    readMarkerEventId := "", prettyPrint := fun s => s, roomMembername := fun s => s,
    isEventHighlighted := fun _ => false, fileTransferInfo := fun _ => ⟨false, false, 0, 0⟩ }

/-- A model showing the given room. -/
def sampleModel (room : Option Room) : Model :=
  { m_currentRoom := room, lastReadEventId := "", nextNewerRow := -1, mergingEcho := false }

/-- An environment with a fixed clock, in a time zone whose clock never skips midnight. -/
def sampleEnv : Env :=
  { currentDateTimeUtc := .mk ⟨2458500⟩ ⟨0⟩ .UTC, currentDate := ⟨2458500⟩,
    localMidnightExists := fun _ => true,
    humanFriendlyDate := true,
    toLocalDate := fun ts => match ts with
      | .invalid => ⟨0⟩
      | .mk date _ _ => date
      | .inGap date _ => date,
    dayName := fun _ => "day", shortDate := fun _ => "date" }

/-- A room with three pending events and an empty timeline. -/
def sampleEchoRoom : Room :=
  sampleRoom [sampleEvent "" "@me:example.org" .invalid,
    sampleEvent "" "@me:example.org" .invalid,
    sampleEvent "" "@me:example.org" .invalid] []

/-- The room `sampleEchoRoom` after its pending event 0 is merged into the timeline. -/
def sampleEchoRoomMerged : Room :=
  sampleRoom [sampleEvent "" "@me:example.org" .invalid,
    sampleEvent "" "@me:example.org" .invalid]
    [sampleEvent "$e" "@me:example.org" (.mk ⟨2458500⟩ (QTime.ofHM 12 0) .UTC)]

/-- A member event of `@ann:example.org` with the given display name and avatar URL,
after a join with the display name "Ann" and the avatar URL "mxc://example.org/a". -/
def sampleMemberChange (displayName avatarUrl : String) : RoomMemberEvent :=
  { userId := "@ann:example.org", membership := .Join, displayName := displayName,
    avatarUrl := avatarUrl,
    prevContent := some ⟨.Join, "Ann", "mxc://example.org/a"⟩ }

/-- A state event that repeats the state or not, redacted with the given reason or not. -/
def sampleStateEvent (id : String) (repeatsState : Bool) (redactedBecause : Option String)
    (c : StateContent) : RoomEvent :=
  { id := id, senderId := "@ann:example.org", timestamp := .mk ⟨2458500⟩ (QTime.ofHM 12 0) .UTC,
    redactedBecause := redactedBecause, originalJson := "", matrixType := "m.room.member",
    kind := .stateEvent repeatsState c }

/-- A valid timestamp at noon UTC of the given Julian day. -/
def noonOn (jd : Int) : QDateTime := .mk ⟨jd⟩ (QTime.ofHM 12 0) .UTC

/-! ## Lemmas on rows -/

theorem rowEvent_none_of_no_room (m : Model) (row : Int) (h : m.m_currentRoom = none) :
    rowEvent m row = none := by
  simp [rowEvent, h]

theorem rowEvent_of_out_of_range (m : Model) (room : Room) (row : Int)
    (h : m.m_currentRoom = some room)
    (hr : row < 0 ∨ row ≥ (room.pendingEvents.length : Int) + room.timelineSize) :
    rowEvent m row = none := by
  simp only [rowEvent, h]
  rw [if_pos hr]

theorem rowEvent_pending (m : Model) (room : Room) (row : Int)
    (h : m.m_currentRoom = some room) (h0 : 0 ≤ row)
    (hp : row < (room.pendingEvents.length : Int)) :
    rowEvent m row = room.pendingEvents[row.toNat]? := by
  have ht : (0 : Int) ≤ room.timelineSize := by simp [Room.timelineSize]
  simp only [rowEvent, h]
  rw [if_neg (by omega), if_pos hp]

theorem rowEvent_timeline (m : Model) (room : Room) (row : Int)
    (h : m.m_currentRoom = some room) (hp : (room.pendingEvents.length : Int) ≤ row)
    (ht : row < (room.pendingEvents.length : Int) + room.timelineSize) :
    rowEvent m row = room.messageEvents.reverse[(row - room.pendingEvents.length).toNat]? := by
  simp only [rowEvent, h]
  rw [if_neg (by omega), if_neg (by omega)]
  have hmax : max (-1) (row - (room.pendingEvents.length : Int)) = row - room.pendingEvents.length := by
    omega
  simp only [Room.atRev, hmax]
  rw [if_neg (by omega)]

theorem data_eventId_of_rowEvent (env : Env) (m : Model) (row : Int) (evt : RoomEvent)
    (h : rowEvent m row = some evt) : data env m row EventIdRole = .string evt.id := by
  cases hroom : m.m_currentRoom with
  | none => simp [rowEvent, hroom] at h
  | some room =>
    simp only [data, hroom, h, dataOfEvent]
    simp [DisplayRole, ToolTipRole, EventTypeRole, EventResolvedTypeRole, AuthorRole,
      ContentTypeRole, ContentRole, HighlightRole, ReadMarkerRole, SpecialMarksRole,
      EventIdRole, UserRole]

theorem data_null_of_rowEvent_none (env : Env) (m : Model) (row role : Int)
    (h : rowEvent m row = none) : data env m row role = .null := by
  cases hroom : m.m_currentRoom with
  | none => simp [data, hroom]
  | some room => simp [data, hroom, h]

theorem rowEvent_eq (m : Model) (room : Room) (row : Int) (h : m.m_currentRoom = some room) :
    rowEvent m row =
      if row < 0 then none
      else if row < (room.pendingEvents.length : Int) then room.pendingEvents[row.toNat]?
      else room.messageEvents.reverse[(row - room.pendingEvents.length).toNat]? := by
  by_cases h0 : row < 0
  · rw [if_pos h0]; exact rowEvent_of_out_of_range m room row h (Or.inl h0)
  · rw [if_neg h0]
    by_cases hp : row < (room.pendingEvents.length : Int)
    · rw [if_pos hp]; exact rowEvent_pending m room row h (by omega) hp
    · rw [if_neg hp]
      by_cases ht : row < (room.pendingEvents.length : Int) + room.timelineSize
      · exact rowEvent_timeline m room row h (by omega) ht
      · rw [rowEvent_of_out_of_range m room row h (Or.inr (by omega))]
        symm
        apply List.getElem?_eq_none
        simp only [Room.timelineSize] at ht
        rw [List.length_reverse]
        omega

theorem rowEvent_some_of_in_range (m : Model) (room : Room) (row : Int)
    (h : m.m_currentRoom = some room) (h0 : 0 ≤ row)
    (ht : row < (room.pendingEvents.length : Int) + room.messageEvents.length) :
    ∃ evt, rowEvent m row = some evt := by
  rw [rowEvent_eq m room row h, if_neg (by omega)]
  by_cases hp : row < (room.pendingEvents.length : Int)
  · rw [if_pos hp]
    exact ⟨_, List.getElem?_eq_getElem (by omega)⟩
  · rw [if_neg hp]
    exact ⟨_, List.getElem?_eq_getElem (by rw [List.length_reverse]; omega)⟩

theorem data_of_rowEvent (env : Env) (m : Model) (room : Room) (row role : Int)
    (evt : RoomEvent) (h : m.m_currentRoom = some room) (hrow : rowEvent m row = some evt) :
    data env m row role
      = dataOfEvent env m room row (max (-1) (row - (room.pendingEvents.length : Int))) evt
          role := by
  simp only [data, h, hrow]

theorem dataOfEvent_specialMarks (env : Env) (m : Model) (room : Room) (row timelineIt : Int)
    (evt : RoomEvent) :
    dataOfEvent env m room row timelineIt evt SpecialMarksRole
      = if row < (room.pendingEvents.length : Int) then
          .string (if evt.id = "" then "unsent" else "unsynced")
        else if evt.isStateEvent ∧ evt.repeatsState then .string "noop"
        else .string (if evt.isRedacted then "redacted" else "") := by
  simp [dataOfEvent, DisplayRole, ToolTipRole, EventTypeRole, EventResolvedTypeRole, AuthorRole,
    ContentTypeRole, ContentRole, HighlightRole, ReadMarkerRole, SpecialMarksRole, UserRole]

/-! ## Rows of `data()` and `rowCount()` -/

/-- C1: with no room set, with a negative row, or with a row at or beyond the number of
pending events plus the timeline size, `data()` returns the empty value for every role.
Otherwise the event of the row is the pending event number `row` when `row` is below
the number of pending events, and else the timeline event that is `row` minus the
number of pending events steps from the newest one; `EventIdRole` returns its id. -/
theorem data_serves_row_event (env : Env) (m : Model) (row role : Int) :
    (m.m_currentRoom = none → data env m row role = .null) ∧
    (∀ room : Room, m.m_currentRoom = some room →
      ((row < 0 ∨ row ≥ (room.pendingEvents.length : Int) + room.messageEvents.length) →
        data env m row role = .null) ∧
      (0 ≤ row → row < (room.pendingEvents.length : Int) →
        ∃ evt, room.pendingEvents[row.toNat]? = some evt ∧ rowEvent m row = some evt ∧
          data env m row EventIdRole = .string evt.id) ∧
      ((room.pendingEvents.length : Int) ≤ row →
        row < (room.pendingEvents.length : Int) + room.messageEvents.length →
        ∃ evt, room.messageEvents.reverse[(row - room.pendingEvents.length).toNat]? = some evt ∧
          rowEvent m row = some evt ∧ data env m row EventIdRole = .string evt.id)) := by
  refine ⟨fun h => data_null_of_rowEvent_none env m row role (rowEvent_none_of_no_room m row h),
    fun room h => ⟨fun hr => ?_, fun h0 hp => ?_, fun hp ht => ?_⟩⟩
  · exact data_null_of_rowEvent_none env m row role (rowEvent_of_out_of_range m room row h hr)
  · have hlt : row.toNat < room.pendingEvents.length := by omega
    have hev : rowEvent m row = some (room.pendingEvents[row.toNat]) := by
      rw [rowEvent_pending m room row h h0 hp, List.getElem?_eq_getElem hlt]
    exact ⟨_, List.getElem?_eq_getElem hlt, hev, data_eventId_of_rowEvent env m row _ hev⟩
  · have hlt : (row - room.pendingEvents.length).toNat < room.messageEvents.reverse.length := by
      rw [List.length_reverse]; omega
    have hev : rowEvent m row =
        some (room.messageEvents.reverse[(row - room.pendingEvents.length).toNat]) := by
      rw [rowEvent_timeline m room row h hp (by simpa [Room.timelineSize] using ht),
        List.getElem?_eq_getElem hlt]
    exact ⟨_, List.getElem?_eq_getElem hlt, hev, data_eventId_of_rowEvent env m row _ hev⟩

/-- C1 at a room with one pending event and a timeline of two: row 0 is the pending
event, row 2 the older timeline event, row 3 and row -1 are empty. -/
theorem data_serves_row_event_witness :
    (∃ evt, (sampleRoom [sampleEvent "" "@me:example.org" .invalid]
          [sampleEvent "$a" "@a:example.org" (noonOn 2458499),
           sampleEvent "$b" "@b:example.org" (noonOn 2458500)]).messageEvents.reverse[(2 - 1 : Int).toNat]?
        = some evt ∧
      rowEvent (sampleModel (some (sampleRoom [sampleEvent "" "@me:example.org" .invalid]
          [sampleEvent "$a" "@a:example.org" (noonOn 2458499),
           sampleEvent "$b" "@b:example.org" (noonOn 2458500)]))) 2 = some evt ∧
      data sampleEnv (sampleModel (some (sampleRoom [sampleEvent "" "@me:example.org" .invalid]
          [sampleEvent "$a" "@a:example.org" (noonOn 2458499),
           sampleEvent "$b" "@b:example.org" (noonOn 2458500)]))) 2 EventIdRole
        = .string evt.id) :=
  ((data_serves_row_event sampleEnv (sampleModel (some (sampleRoom
      [sampleEvent "" "@me:example.org" .invalid]
      [sampleEvent "$a" "@a:example.org" (noonOn 2458499),
       sampleEvent "$b" "@b:example.org" (noonOn 2458500)]))) 2 EventIdRole).2 _ rfl).2.2
    (by decide) (by decide)

/-- C2, at a room with one pending event and an empty timeline: `rowCount()` is 0,
although `data()` serves the pending event at row 0; the count of pending events plus
the timeline size is 1. -/
theorem rowCount_omits_pending_rows :
    rowCount (sampleModel (some (sampleRoom [sampleEvent "$echo" "@me:example.org" .invalid] [])))
        false = 0 ∧
      rowEvent (sampleModel (some (sampleRoom [sampleEvent "$echo" "@me:example.org" .invalid] []))) 0
        = some (sampleEvent "$echo" "@me:example.org" .invalid) ∧
      data sampleEnv
        (sampleModel (some (sampleRoom [sampleEvent "$echo" "@me:example.org" .invalid] []))) 0
        EventIdRole = .string "$echo" := by
  decide

/-! ## Refreshing and inserting rows -/

/-- C3, at a room with one pending event and the timeline event `$a`: `refreshEvent`
emits `dataChanged` for row 0, the offset of `$a` from the newest end of the timeline,
where `data()` serves the pending event; `data()` serves `$a` at row 1. -/
theorem refreshEvent_row_ignores_pending :
    refreshEvent (sampleModel (some (sampleRoom [sampleEvent "" "@me:example.org" .invalid]
        [sampleEvent "$a" "@a:example.org" (noonOn 2458500)]))) "$a"
      = [.dataChanged (some 0) (some 0) []] ∧
    refreshEventRoles (sampleModel (some (sampleRoom [sampleEvent "" "@me:example.org" .invalid]
        [sampleEvent "$a" "@a:example.org" (noonOn 2458500)]))) "$a" [ReadMarkerRole]
      = [.dataChanged (some 0) (some 0) [ReadMarkerRole]] ∧
    data sampleEnv (sampleModel (some (sampleRoom [sampleEvent "" "@me:example.org" .invalid]
        [sampleEvent "$a" "@a:example.org" (noonOn 2458500)]))) 0 EventIdRole = .string "" ∧
    data sampleEnv (sampleModel (some (sampleRoom [sampleEvent "" "@me:example.org" .invalid]
        [sampleEvent "$a" "@a:example.org" (noonOn 2458500)]))) 1 EventIdRole = .string "$a" := by
  decide

/-- C4: for a batch of at least one new message in a room with `p` pending events, the
handler of `aboutToAddNewMessages` begins the insertion of the rows `p` to `p + n - 1`.
Once the batch is appended at the newest end of the timeline, row `p + j` serves the
new event that is `j` steps from the newest one, for every `j < n`; the rows below `p`
serve what they served, and an old row `r ≥ p` is served at row `r + n`. -/
theorem aboutToAddNewMessages_rows (m : Model) (room : Room) (events : List RoomEvent)
    (hroom : m.m_currentRoom = some room) (hn : 1 ≤ events.length) :
    onAboutToAddNewMessages room events
      = .beginInsertRows room.pendingEvents.length
          ((room.pendingEvents.length : Int) + events.length - 1) ∧
    (∀ j : Nat, j < events.length →
      rowEvent { m with m_currentRoom := some (room.addNewMessageEvents events) }
          ((room.pendingEvents.length : Int) + j) = events.reverse[j]? ∧
      (∃ evt, events.reverse[j]? = some evt)) ∧
    (∀ r : Int, r < (room.pendingEvents.length : Int) →
      rowEvent { m with m_currentRoom := some (room.addNewMessageEvents events) } r
        = rowEvent m r) ∧
    (∀ r : Int, (room.pendingEvents.length : Int) ≤ r →
      rowEvent { m with m_currentRoom := some (room.addNewMessageEvents events) }
          (r + events.length) = rowEvent m r) := by
  have hp : (room.addNewMessageEvents events).pendingEvents = room.pendingEvents := rfl
  have ht : (room.addNewMessageEvents events).messageEvents.reverse
      = events.reverse ++ room.messageEvents.reverse := by
    simp [Room.addNewMessageEvents]
  refine ⟨rfl, fun j hj => ⟨?_, ?_⟩, fun r hr => ?_, fun r hr => ?_⟩
  · rw [rowEvent_eq _ (room.addNewMessageEvents events) _ rfl, hp, ht]
    rw [if_neg (by omega), if_neg (by omega)]
    have hj2 : ((room.pendingEvents.length : Int) + j - room.pendingEvents.length).toNat = j := by
      omega
    rw [hj2]
    exact List.getElem?_append_left (by rw [List.length_reverse]; exact hj)
  · have hj2 : j < events.reverse.length := by rw [List.length_reverse]; exact hj
    exact ⟨_, List.getElem?_eq_getElem hj2⟩
  · rw [rowEvent_eq _ (room.addNewMessageEvents events) _ rfl, rowEvent_eq m room r hroom, hp]
    by_cases h0 : r < 0
    · rw [if_pos h0, if_pos h0]
    · rw [if_neg h0, if_neg h0, if_pos hr, if_pos hr]
  · rw [rowEvent_eq _ (room.addNewMessageEvents events) _ rfl, rowEvent_eq m room r hroom, hp, ht]
    rw [if_neg (by omega), if_neg (by omega), if_neg (by omega), if_neg (by omega)]
    have hidx : (r + (events.length : Int) - room.pendingEvents.length).toNat
        = events.reverse.length + (r - room.pendingEvents.length).toNat := by
      rw [List.length_reverse]; omega
    rw [hidx, List.getElem?_append_right (Nat.le_add_right _ _), Nat.add_sub_cancel_left]

/-- C4 at a room with one pending event, one timeline event and a batch of two. -/
theorem aboutToAddNewMessages_rows_witness :
    onAboutToAddNewMessages (sampleRoom [sampleEvent "" "@me:example.org" .invalid]
        [sampleEvent "$a" "@a:example.org" (noonOn 2458499)])
        [sampleEvent "$b" "@b:example.org" (noonOn 2458500),
         sampleEvent "$c" "@c:example.org" (noonOn 2458500)]
      = .beginInsertRows 1 2 :=
  (aboutToAddNewMessages_rows
    (sampleModel (some (sampleRoom [sampleEvent "" "@me:example.org" .invalid]
      [sampleEvent "$a" "@a:example.org" (noonOn 2458499)])))
    (sampleRoom [sampleEvent "" "@me:example.org" .invalid]
      [sampleEvent "$a" "@a:example.org" (noonOn 2458499)])
    [sampleEvent "$b" "@b:example.org" (noonOn 2458500),
     sampleEvent "$c" "@c:example.org" (noonOn 2458500)] rfl (by decide)).1

/-- C5, at a room with one pending event, the timeline event `$a` and the historical
batch `$h`: the handler of `aboutToAddHistoricalMessages` begins the insertion of row 1
alone, the row of `$a`; once `$h` is at the oldest end of the timeline, `data()` serves
`$a` at row 1 still and `$h` at row 2. -/
theorem aboutToAddHistoricalMessages_rows_ignore_pending :
    (onAboutToAddHistoricalMessages
        (sampleModel (some (sampleRoom [sampleEvent "" "@me:example.org" .invalid]
          [sampleEvent "$a" "@a:example.org" (noonOn 2458500)])))
        [sampleEvent "$h" "@h:example.org" (noonOn 2458499)]).2 = .beginInsertRows 1 1 ∧
    rowEvent (sampleModel (some (sampleRoom [sampleEvent "" "@me:example.org" .invalid]
        [sampleEvent "$a" "@a:example.org" (noonOn 2458500)]))) 1
      = some (sampleEvent "$a" "@a:example.org" (noonOn 2458500)) ∧
    rowEvent (sampleModel (some ((sampleRoom [sampleEvent "" "@me:example.org" .invalid]
        [sampleEvent "$a" "@a:example.org" (noonOn 2458500)]).addHistoricalMessageEvents
          [sampleEvent "$h" "@h:example.org" (noonOn 2458499)]))) 1
      = some (sampleEvent "$a" "@a:example.org" (noonOn 2458500)) ∧
    rowEvent (sampleModel (some ((sampleRoom [sampleEvent "" "@me:example.org" .invalid]
        [sampleEvent "$a" "@a:example.org" (noonOn 2458500)]).addHistoricalMessageEvents
          [sampleEvent "$h" "@h:example.org" (noonOn 2458499)]))) 2
      = some (sampleEvent "$h" "@h:example.org" (noonOn 2458499)) := by
  decide

theorem pendingEventAboutToMerge_move (m : Model) (room : Room) (i : Int)
    (h0 : 0 ≤ i) (hp : i < (room.pendingEvents.length : Int)) :
    (i + 1 = (room.pendingEvents.length : Int) →
      onPendingEventAboutToMerge false m room i = (m, none)) ∧
    (i + 1 ≠ (room.pendingEvents.length : Int) →
      (onPendingEventAboutToMerge false m room i).2
        = some (.beginMoveRows i i room.pendingEvents.length) ∧
      (onPendingEventAboutToMerge false m room i).1.mergingEcho = true ∧
      i + 1 < (room.pendingEvents.length : Int) ∧
      beginMoveRowsResult i i room.pendingEvents.length = true) := by
  constructor
  · intro h
    simp [onPendingEventAboutToMerge, h]
  · intro h
    simp only [onPendingEventAboutToMerge, if_neg h, qAssertCall, Bool.false_eq_true, if_false]
    refine ⟨trivial, trivial, by omega, ?_⟩
    simp only [beginMoveRowsResult, Bool.and_eq_true, Bool.not_eq_true', decide_eq_true_eq,
      Bool.and_eq_false_imp]
    refine ⟨⟨⟨h0, le_refl i⟩, by omega⟩, ?_⟩
    intro _
    simp only [decide_eq_false_iff_not]
    omega

/-- C6, in a build with `QT_NO_DEBUG` defined, at three pending events and the pending
index 0: the handler of `pendingEventAboutToMerge` sets `mergingEcho` and begins no
move, because the `beginMoveRows` call is the argument of `Q_ASSERT`; the handler of
`pendingEventMerged`, once the event is in the timeline, calls `endMoveRows` all the
same. With the assertion compiled in, the handler begins the move of row 0 to row 3,
which `beginMoveRows` accepts. -/
theorem pendingEventAboutToMerge_begins_no_move_without_assert :
    (onPendingEventAboutToMerge true (sampleModel (some sampleEchoRoom)) sampleEchoRoom 0).2
      = none ∧
    (onPendingEventAboutToMerge true (sampleModel (some sampleEchoRoom)) sampleEchoRoom
        0).1.mergingEcho = true ∧
    (onPendingEventMerged
        { onPendingEventAboutToMerge true (sampleModel (some sampleEchoRoom)) sampleEchoRoom 0
            |>.1 with m_currentRoom := some sampleEchoRoomMerged }
        sampleEchoRoomMerged).2.head? = some .endMoveRows ∧
    (onPendingEventAboutToMerge false (sampleModel (some sampleEchoRoom)) sampleEchoRoom 0).2
      = some (.beginMoveRows 0 0 3) ∧
    beginMoveRowsResult 0 0 3 = true := by
  decide

/-! ## Timestamps -/

/-- C7, at the timeline (oldest first) valid day 2458490, invalid, invalid, valid day
2458500 and the position one step from the newest event: the nearest event with a
valid timestamp is the newest one, one step away, yet `makeMessageTimestamp` returns
zero time on day 2458490, the date of the oldest event, two steps away. -/
theorem makeMessageTimestamp_prefers_older :
    makeMessageTimestamp sampleEnv (sampleRoom []
        [sampleEvent "$0" "@a:example.org" (noonOn 2458490),
         sampleEvent "$1" "@a:example.org" .invalid,
         sampleEvent "$2" "@a:example.org" .invalid,
         sampleEvent "$3" "@a:example.org" (noonOn 2458500)]) 1
      = .mk ⟨2458490⟩ (QTime.ofHM 0 0) .LocalTime ∧
    (sampleRoom []
        [sampleEvent "$0" "@a:example.org" (noonOn 2458490),
         sampleEvent "$1" "@a:example.org" .invalid,
         sampleEvent "$2" "@a:example.org" .invalid,
         sampleEvent "$3" "@a:example.org" (noonOn 2458500)]).messageEvents.reverse.map
        (fun e => e.timestamp)
      = [noonOn 2458500, .invalid, .invalid, noonOn 2458490] := by
  decide

/-- C8: for a row whose event is a member event that is not redacted, does not repeat
the state, has membership Join or Invite and a previous content of the same membership,
the display role is: the display-name clause when only the display name differs from the
previous content, the avatar clause when only the avatar URL differs, the display-name
clause, " and " and the avatar clause when both differ, and the empty string when
neither differs. The display-name clause is "cleared the display name" for an empty new
name and "changed the display name to " with the name otherwise; the avatar clause is
"cleared the avatar" for an empty new URL and "updated the avatar" otherwise. -/
theorem member_profile_change_text (env : Env) (m : Model) (room : Room) (row : Int)
    (evt : RoomEvent) (e : RoomMemberEvent) (prev : MemberEventContent)
    (hroom : m.m_currentRoom = some room) (hrow : rowEvent m row = some evt)
    (hred : evt.redactedBecause = none)
    (hkind : evt.kind = .stateEvent false (.member e))
    (hmem : e.membership = .Join ∨ e.membership = .Invite)
    (hprev : e.prevContent = some prev) (hsame : prev.membership = e.membership) :
    let nameClause :=
      if e.displayName = "" then "cleared the display name"
      else "changed the display name to " ++ e.displayName
    let avatarClause :=
      if e.avatarUrl = "" then "cleared the avatar" else "updated the avatar"
    (e.displayName ≠ prev.displayName → e.avatarUrl = prev.avatarUrl →
      data env m row DisplayRole = .string nameClause) ∧
    (e.displayName = prev.displayName → e.avatarUrl ≠ prev.avatarUrl →
      data env m row DisplayRole = .string avatarClause) ∧
    (e.displayName ≠ prev.displayName → e.avatarUrl ≠ prev.avatarUrl →
      data env m row DisplayRole = .string (nameClause ++ " and " ++ avatarClause)) ∧
    (e.displayName = prev.displayName → e.avatarUrl = prev.avatarUrl →
      data env m row DisplayRole = .string "") := by
  intro nameClause avatarClause
  have hne : nameClause ≠ "" := by
    intro hc
    have hl := congrArg String.length hc
    by_cases hd : e.displayName = ""
    · simp only [nameClause, if_pos hd] at hl
      exact absurd hl (by decide)
    · simp only [nameClause, if_neg hd, String.length_append] at hl
      have h28 : "changed the display name to ".length = 28 := by decide
      have h0 : "".length = 0 := rfl
      omega
  have hname : (if e.displayName = "" then "cleared the display name"
      else "changed the display name to " ++ e.displayName) = nameClause := rfl
  have havatar : ∀ text : String,
      (if e.avatarUrl = "" then text ++ "cleared the avatar" else text ++ "updated the avatar")
        = text ++ avatarClause := by
    intro text
    by_cases hav : e.avatarUrl = ""
    · simp only [avatarClause, if_pos hav]
    · simp only [avatarClause, if_neg hav]
  have hjoin : data env m row DisplayRole
      = .string (joinCaseText (room.roomMembername e.userId) false e) := by
    rw [data_of_rowEvent env m room row DisplayRole evt hroom hrow]
    simp only [dataOfEvent, if_pos, displayText, hred, hkind, memberEventText]
    rcases hmem with hm | hm <;> simp [hm]
  have hmne : ¬ (e.membership ≠ prev.membership) := by simp [hsame]
  have hempty : ¬ (("" : String) ≠ "") := fun hc => hc rfl
  rw [hjoin]
  simp only [joinCaseText, hprev, if_neg hmne, havatar, hname, Bool.false_eq_true, if_false]
  refine ⟨fun hd ha => ?_, fun hd ha => ?_, fun hd ha => ?_, fun hd ha => ?_⟩
  · simp only [if_pos hd, if_neg (not_not.mpr ha)]
  · simp only [if_neg (not_not.mpr hd), if_pos ha, if_neg hempty, String.empty_append]
  · simp only [if_pos hd, if_pos ha, if_pos hne, String.append_assoc]
  · simp only [if_neg (not_not.mpr hd), if_neg (not_not.mpr ha)]

/-- C8 at a timeline of one member event that changes the display name from "Ann" to
"Anna" and the avatar URL as well. -/
theorem member_profile_change_text_witness :
    data sampleEnv
        (sampleModel (some (sampleRoom []
          [sampleStateEvent "$m" false none
            (.member (sampleMemberChange "Anna" "mxc://example.org/b"))]))) 0 DisplayRole
      = .string "changed the display name to Anna and updated the avatar" :=
  (member_profile_change_text sampleEnv
    (sampleModel (some (sampleRoom []
      [sampleStateEvent "$m" false none
        (.member (sampleMemberChange "Anna" "mxc://example.org/b"))])))
    (sampleRoom []
      [sampleStateEvent "$m" false none
        (.member (sampleMemberChange "Anna" "mxc://example.org/b"))]) 0
    (sampleStateEvent "$m" false none (.member (sampleMemberChange "Anna" "mxc://example.org/b")))
    (sampleMemberChange "Anna" "mxc://example.org/b") ⟨.Join, "Ann", "mxc://example.org/a"⟩
    rfl (by decide) rfl rfl (Or.inl rfl) rfl rfl).2.2.1 (by decide) (by decide)

/-- C9: every row in range has an event, and the special-marks role of the row is: for
a pending row "unsent" when the id of the event is empty and "unsynced" otherwise,
whatever the kind of the event and whether it is redacted; for a timeline row "noop"
when the event is a state event that repeats the state, redacted or not, otherwise
"redacted" when the event is redacted, otherwise the empty string. -/
theorem specialMarks_text (env : Env) (m : Model) (room : Room) (row : Int)
    (hroom : m.m_currentRoom = some room) (h0 : 0 ≤ row)
    (ht : row < (room.pendingEvents.length : Int) + room.messageEvents.length) :
    ∃ evt, rowEvent m row = some evt ∧
      (row < (room.pendingEvents.length : Int) →
        (evt.id = "" → data env m row SpecialMarksRole = .string "unsent") ∧
        (evt.id ≠ "" → data env m row SpecialMarksRole = .string "unsynced")) ∧
      ((room.pendingEvents.length : Int) ≤ row →
        (evt.isStateEvent = true ∧ evt.repeatsState = true →
          data env m row SpecialMarksRole = .string "noop") ∧
        (¬ (evt.isStateEvent = true ∧ evt.repeatsState = true) → evt.isRedacted = true →
          data env m row SpecialMarksRole = .string "redacted") ∧
        (¬ (evt.isStateEvent = true ∧ evt.repeatsState = true) → evt.isRedacted = false →
          data env m row SpecialMarksRole = .string "")) := by
  obtain ⟨evt, hevt⟩ := rowEvent_some_of_in_range m room row hroom h0 ht
  refine ⟨evt, hevt, fun hp => ⟨fun hid => ?_, fun hid => ?_⟩,
    fun hp => ⟨fun hs => ?_, fun hs hr => ?_, fun hs hr => ?_⟩⟩
  · rw [data_of_rowEvent env m room row _ evt hroom hevt, dataOfEvent_specialMarks, if_pos hp,
      if_pos hid]
  · rw [data_of_rowEvent env m room row _ evt hroom hevt, dataOfEvent_specialMarks, if_pos hp,
      if_neg hid]
  · rw [data_of_rowEvent env m room row _ evt hroom hevt, dataOfEvent_specialMarks,
      if_neg (by omega), if_pos hs]
  · rw [data_of_rowEvent env m room row _ evt hroom hevt, dataOfEvent_specialMarks,
      if_neg (by omega), if_neg hs, if_pos hr]
  · rw [data_of_rowEvent env m room row _ evt hroom hevt, dataOfEvent_specialMarks,
      if_neg (by omega), if_neg hs, hr]
    rfl

/-- C9 at a room with one pending event and a timeline of one redacted state event
that repeats the state: both rows have an event. -/
theorem specialMarks_text_witness :
    ∃ evt, rowEvent (sampleModel (some (sampleRoom [sampleEvent "" "@me:example.org" .invalid]
        [sampleStateEvent "$s" true (some "spam") .avatar]))) 1 = some evt ∧
      (evt.isStateEvent = true ∧ evt.repeatsState = true →
        data sampleEnv (sampleModel (some (sampleRoom [sampleEvent "" "@me:example.org" .invalid]
          [sampleStateEvent "$s" true (some "spam") .avatar]))) 1 SpecialMarksRole
          = .string "noop") :=
  have h := specialMarks_text sampleEnv
    (sampleModel (some (sampleRoom [sampleEvent "" "@me:example.org" .invalid]
      [sampleStateEvent "$s" true (some "spam") .avatar])))
    (sampleRoom [sampleEvent "" "@me:example.org" .invalid]
      [sampleStateEvent "$s" true (some "spam") .avatar]) 1 rfl (by decide) (by decide)
  h.elim fun evt hevt => ⟨evt, hevt.1, (hevt.2.2 (by decide)).1⟩

/-! ## Authors of a row and of the row above -/

theorem dataOfEvent_author (env : Env) (m : Model) (room : Room) (row timelineIt : Int)
    (evt : RoomEvent) :
    dataOfEvent env m room row timelineIt evt AuthorRole
      = .user (if row < (room.pendingEvents.length : Int) then room.localUser
          else evt.senderId) := by
  simp [dataOfEvent, DisplayRole, ToolTipRole, EventTypeRole, EventResolvedTypeRole, AuthorRole,
    UserRole]

theorem dataOfEvent_aboveAuthor (env : Env) (m : Model) (room : Room) (row timelineIt : Int)
    (evt : RoomEvent) :
    dataOfEvent env m room row timelineIt evt AboveAuthorRole
      = dataTail env room row timelineIt AboveAuthorRole := by
  simp [dataOfEvent, DisplayRole, ToolTipRole, EventTypeRole, EventResolvedTypeRole, AuthorRole,
    ContentTypeRole, ContentRole, HighlightRole, ReadMarkerRole, SpecialMarksRole, EventIdRole,
    LongOperationRole, AboveAuthorRole, UserRole]

theorem dataTail_aboveAuthor (env : Env) (room : Room) (row timelineIt : Int) :
    dataTail env room row timelineIt AboveAuthorRole
      = if row ≥ (room.pendingEvents.length : Int) - 1 then
          if timelineIt + 1 ≠ room.timelineEdge then
            match room.atRev (timelineIt + 1) with
            | some above => .user above.senderId
            | none => .null
          else .null
        else .null := by
  simp [dataTail, TimeRole, SectionRole, AboveSectionRole, AboveAuthorRole, UserRole]

/-- C11: for a row `r` in range, with `p` pending events and a timeline of size `t`:
when `r ≥ p - 1` and `r + 1 < p + t`, row `r + 1` has an event, the author role there
is the user of its sender, and the above-author role at row `r` equals it; when `r` is
the last row, or a pending row below `p - 1`, the above-author role is empty. -/
theorem aboveAuthor_is_author_of_next_row (env : Env) (m : Model) (room : Room) (row : Int)
    (hroom : m.m_currentRoom = some room) (h0 : 0 ≤ row)
    (ht : row < (room.pendingEvents.length : Int) + room.messageEvents.length) :
    (row ≥ (room.pendingEvents.length : Int) - 1 →
      row + 1 < (room.pendingEvents.length : Int) + room.messageEvents.length →
      ∃ next, rowEvent m (row + 1) = some next ∧
        data env m (row + 1) AuthorRole = .user next.senderId ∧
        data env m row AboveAuthorRole = data env m (row + 1) AuthorRole) ∧
    (row = (room.pendingEvents.length : Int) + room.messageEvents.length - 1 →
      data env m row AboveAuthorRole = .null) ∧
    (row < (room.pendingEvents.length : Int) - 1 →
      data env m row AboveAuthorRole = .null) := by
  obtain ⟨evt, hevt⟩ := rowEvent_some_of_in_range m room row hroom h0 ht
  have habove : data env m row AboveAuthorRole
      = dataTail env room row (max (-1) (row - (room.pendingEvents.length : Int)))
          AboveAuthorRole := by
    rw [data_of_rowEvent env m room row _ evt hroom hevt, dataOfEvent_aboveAuthor]
  refine ⟨fun hp hnext => ?_, fun hlast => ?_, fun hpend => ?_⟩
  · obtain ⟨next, hnextEvt⟩ :=
      rowEvent_some_of_in_range m room (row + 1) hroom (by omega) hnext
    have hauthor : data env m (row + 1) AuthorRole = .user next.senderId := by
      rw [data_of_rowEvent env m room (row + 1) _ next hroom hnextEvt, dataOfEvent_author,
        if_neg (by omega)]
    have hit : max (-1) (row - (room.pendingEvents.length : Int)) + 1
        = row + 1 - room.pendingEvents.length := by omega
    have hrev : room.atRev (row + 1 - room.pendingEvents.length) = some next := by
      rw [rowEvent_eq m room (row + 1) hroom, if_neg (by omega), if_neg (by omega)] at hnextEvt
      simp only [Room.atRev]
      rw [if_neg (by omega)]
      exact hnextEvt
    refine ⟨next, hnextEvt, hauthor, ?_⟩
    rw [habove, hauthor, dataTail_aboveAuthor, if_pos hp, hit, hrev]
    rw [if_pos (by simp only [Room.timelineEdge]; omega)]
  · rw [habove, dataTail_aboveAuthor]
    by_cases hp : row ≥ (room.pendingEvents.length : Int) - 1
    · rw [if_pos hp, if_neg (by simp only [Room.timelineEdge]; omega)]
    · rw [if_neg hp]
  · rw [habove, dataTail_aboveAuthor, if_neg (by omega)]

/-- C11 at a room with two pending events and a timeline of two: the above-author role
of the last pending row, row 1, is the author role of row 2, the newest timeline event. -/
theorem aboveAuthor_is_author_of_next_row_witness :
    ∃ next, rowEvent (sampleModel (some (sampleRoom
          [sampleEvent "" "@me:example.org" .invalid, sampleEvent "" "@me:example.org" .invalid]
          [sampleEvent "$a" "@a:example.org" (noonOn 2458499),
           sampleEvent "$b" "@b:example.org" (noonOn 2458500)]))) (1 + 1) = some next ∧
      data sampleEnv (sampleModel (some (sampleRoom
          [sampleEvent "" "@me:example.org" .invalid, sampleEvent "" "@me:example.org" .invalid]
          [sampleEvent "$a" "@a:example.org" (noonOn 2458499),
           sampleEvent "$b" "@b:example.org" (noonOn 2458500)]))) (1 + 1) AuthorRole
        = .user next.senderId ∧
      data sampleEnv (sampleModel (some (sampleRoom
          [sampleEvent "" "@me:example.org" .invalid, sampleEvent "" "@me:example.org" .invalid]
          [sampleEvent "$a" "@a:example.org" (noonOn 2458499),
           sampleEvent "$b" "@b:example.org" (noonOn 2458500)]))) 1 AboveAuthorRole
        = data sampleEnv (sampleModel (some (sampleRoom
          [sampleEvent "" "@me:example.org" .invalid, sampleEvent "" "@me:example.org" .invalid]
          [sampleEvent "$a" "@a:example.org" (noonOn 2458499),
           sampleEvent "$b" "@b:example.org" (noonOn 2458500)]))) (1 + 1) AuthorRole :=
  (aboveAuthor_is_author_of_next_row sampleEnv
    (sampleModel (some (sampleRoom
      [sampleEvent "" "@me:example.org" .invalid, sampleEvent "" "@me:example.org" .invalid]
      [sampleEvent "$a" "@a:example.org" (noonOn 2458499),
       sampleEvent "$b" "@b:example.org" (noonOn 2458500)])))
    (sampleRoom
      [sampleEvent "" "@me:example.org" .invalid, sampleEvent "" "@me:example.org" .invalid]
      [sampleEvent "$a" "@a:example.org" (noonOn 2458499),
       sampleEvent "$b" "@b:example.org" (noonOn 2458500)]) 1 rfl (by decide) (by decide)).1
    (by decide) (by decide)

end MessageEventModel
